import Mathlib

/-
Verification development for the LOLBins simulation toolchain.

The Python sources embedded here:
  - repo_parser.py    : RepoParser walks a directory of YAML files and
                        accumulates normalized command records.
  - command_updater.py: CommandUpdater.parse_repo writes the records as
                        pretty-printed JSON to a fixed commands.json path.
  - repo_importer.py  : RepoImporter clones a remote repository when the
                        target directory is absent, otherwise pulls.
  - Simulate.py       : run_command executes one shell command and wraps
                        the outcome in a SimulationResult.
  - command_add_gui.py: CommandEntry.to_dict / CommandEntry.from_dict.

YAML scalar/sequence values are modelled by the `YVal` universe below
(strings, sequences of string scalars, and null), which covers every value
shape the parser's field accesses distinguish: `isinstance(mitre_id, list)`
and indexing `mitre_id[0]`.
-/

/-- YAML values as returned by yaml.safe_load for the fields the parser
reads: a string scalar, a sequence of string scalars, or null. -/
inductive YVal where
  | s : String → YVal
  | l : List String → YVal
  | null : YVal
deriving DecidableEq

/-- One element of a file's `Commands` sequence, restricted to the four
keys repo_parser.py accesses.  `none` means the key is absent from the
mapping; `some v` means the key is present with value `v` (possibly
`YVal.null`, matching a YAML key with a null value). -/
structure CmdMap where
  command? : Option YVal
  description? : Option YVal
  severity? : Option YVal
  mitreID? : Option YVal
deriving DecidableEq

/-- A normalized command record, the dict appended to `self._commands` in
repo_parser.py lines 28-33: keys Command, Description, Severity,
MitreAttackTag. -/
structure Rec where
  Command : YVal
  Description : YVal
  Severity : YVal
  MitreAttackTag : YVal
deriving DecidableEq

/-- Console log lines of repo_parser.py: the "Skipping malformed command"
print (line 35) and the "Failed to parse" print of the per-file except
clause (line 37), carrying the file path and the exception message. -/
inductive LogEvent where
  | skippedMalformed : String → CmdMap → LogEvent
  | failedParse : String → String → LogEvent
deriving DecidableEq

/-- Embeds `mitre_id = mitre_id[0] if isinstance(mitre_id, list)`
(repo_parser.py lines 20-21): indexing an empty list raises IndexError
with message "list index out of range"; a non-empty list yields its first
element; a non-list value passes through unchanged. -/
def firstIfList : YVal → Except String YVal
  | YVal.l [] => Except.error "list index out of range"
  | YVal.l (x :: _) => Except.ok (YVal.s x)
  | v => Except.ok v

/-- Embeds the body of the `for command in content["Commands"]` loop for a
single command mapping (repo_parser.py lines 19-35): extract MitreID
(default "N/A", first element if a list), extract Severity (default
"Informational"), then append a record iff both "Command" and
"Description" keys are present, else skip.  `Except.error` is the
exception escaping the loop body; `Except.ok none` is a logged skip. -/
def processCommand (c : CmdMap) : Except String (Option Rec) :=
  match firstIfList (c.mitreID?.getD (YVal.s "N/A")) with
  | Except.error msg => Except.error msg
  | Except.ok mitre =>
    match c.command?, c.description? with
    | some cv, some dv =>
      Except.ok (some ⟨cv, dv, c.severity?.getD (YVal.s "Informational"), mitre⟩)
    | _, _ => Except.ok none

/-- Runs the Commands loop over a whole sequence for a file at path `fp`,
returning the records appended and the log lines printed, in order.  An
exception raised by one mapping is caught by the per-file `except` clause
(repo_parser.py lines 36-37): records appended before it are kept, the
failure is logged, and the rest of the file's mappings are not visited. -/
def processCommands (fp : String) : List CmdMap → List Rec × List LogEvent
  | [] => ([], [])
  | c :: cs =>
    match processCommand c with
    | Except.error msg => ([], [LogEvent.failedParse fp msg])
    | Except.ok none =>
      let rest := processCommands fp cs
      (rest.1, LogEvent.skippedMalformed fp c :: rest.2)
    | Except.ok (some r) =>
      let rest := processCommands fp cs
      (r :: rest.1, rest.2)

/-- What yaml.safe_load plus the shape check yields for one file:
`parseError msg` when opening or parsing raises (caught per-file, logged),
`other` when the document is not a mapping with a "Commands" key (yields
nothing, no log), `commands cs` for the expected shape. -/
inductive FileContent where
  | parseError : String → FileContent
  | other : FileContent
  | commands : List CmdMap → FileContent
deriving DecidableEq

/-- Processing of a single file inside the walk (repo_parser.py
lines 13-37), with the try/except around open, parse and the loop. -/
def processFile (fp : String) : FileContent → List Rec × List LogEvent
  | FileContent.parseError msg => ([], [LogEvent.failedParse fp msg])
  | FileContent.other => ([], [])
  | FileContent.commands cs => processCommands fp cs

/-- The filename filter of repo_parser.py line 11:
file.endswith(".yml") or file.endswith(".yaml"), with the suffix test
carried out on the character list. -/
def isYamlFile (name : String) : Bool :=
  List.isSuffixOf ".yml".data name.data || List.isSuffixOf ".yaml".data name.data

/-- The whole directory walk of RepoParser.__init__: `files` is the
sequence of (joined path, content) pairs in the order os.walk presents
them; records and log lines accumulate across files in that order. -/
def repoParser : List (String × FileContent) → List Rec × List LogEvent
  | [] => ([], [])
  | (fp, fc) :: rest =>
    let here := if isYamlFile fp then processFile fp fc else ([], [])
    let there := repoParser rest
    (here.1 ++ there.1, here.2 ++ there.2)

/-- True iff the first-element MitreID extraction for this mapping cannot
raise: every shape except a present empty-list MitreID. -/
def cmdOk (c : CmdMap) : Bool :=
  match c.mitreID? with
  | some (YVal.l []) => false
  | _ => true

/-- True iff no mapping in the file can raise during extraction. -/
def fileOk : FileContent → Bool
  | FileContent.commands cs => cs.all cmdOk
  | _ => true

/-- True iff no file in the walk contains a mapping that raises during
extraction. -/
def filesOk (files : List (String × FileContent)) : Bool :=
  files.all (fun p => fileOk p.2)

/-- Specification-side definition, written from the spec's words for
comparison with the code: the MitreAttackTag the spec assigns to a
retained mapping — first element when the source value is a list, the
scalar when it is a scalar, the sentinel "N/A" when the key is absent.
(The present-empty-list case never reaches emission; it is mapped to the
sentinel here and excluded by `cmdOk` wherever this definition is used.) -/
def mitreOfSpec (c : CmdMap) : YVal :=
  match c.mitreID? with
  | none => YVal.s "N/A"
  | some (YVal.l (x :: _)) => YVal.s x
  | some (YVal.l []) => YVal.s "N/A"
  | some v => v

/-- Specification-side definition: the record the spec expects for one
command mapping — present iff both Command and Description keys are
present, with Severity defaulted to "Informational" when absent. -/
def recOfSpec (c : CmdMap) : Option Rec :=
  match c.command?, c.description? with
  | some cv, some dv =>
    some ⟨cv, dv, c.severity?.getD (YVal.s "Informational"), mitreOfSpec c⟩
  | _, _ => none

/-- Specification-side definition: the records the spec expects from one
file of the walk. -/
def fileRecsSpec : FileContent → List Rec
  | FileContent.commands cs => cs.filterMap recOfSpec
  | _ => []

/-- A run of `n` spaces, for JSON indentation. -/
def spaces (n : Nat) : String := String.mk (List.replicate n ' ')

/-- Lowercase hexadecimal digit, as CPython's \uXXXX formatting emits. -/
def hexDigitChar (n : Nat) : Char :=
  if n < 10 then Char.ofNat (48 + n) else Char.ofNat (87 + n)

/-- A \uXXXX escape with four lowercase hex digits. -/
def uEscape (n : Nat) : String :=
  "\\u" ++ String.mk [hexDigitChar (n / 4096 % 16), hexDigitChar (n / 256 % 16),
    hexDigitChar (n / 16 % 16), hexDigitChar (n % 16)]

/-- CPython json.dump default (ensure_ascii) escaping of one character:
backslash, quote and the short control escapes, \uXXXX for the remaining
control and non-ASCII characters, surrogate pairs above U+FFFF, and
printable ASCII passed through. -/
def escapeChar (c : Char) : String :=
  if c = '\\' then "\\\\"
  else if c = '"' then "\\\""
  else if c = '\n' then "\\n"
  else if c = '\t' then "\\t"
  else if c = '\r' then "\\r"
  else if c.toNat = 8 then "\\b"
  else if c.toNat = 12 then "\\f"
  else if 32 ≤ c.toNat && c.toNat ≤ 126 then String.singleton c
  else if c.toNat < 65536 then uEscape c.toNat
  else uEscape (55296 + (c.toNat - 65536) / 1024) ++ uEscape (56320 + (c.toNat - 65536) % 1024)

/-- A JSON string literal as json.dump renders it. -/
def jsonStr (s : String) : String :=
  "\"" ++ String.join (s.data.map escapeChar) ++ "\""

/-- A JSON value as json.dump with indent=4 renders it at nesting depth
`level`: strings quoted, null, the empty list as "[]", a non-empty list
with each item on its own line one indent step deeper. -/
def pyJsonVal (level : Nat) : YVal → String
  | YVal.s str => jsonStr str
  | YVal.null => "null"
  | YVal.l [] => "[]"
  | YVal.l (x :: xs) =>
    "[\n" ++
      String.intercalate ",\n"
        ((x :: xs).map (fun v => spaces (4 * (level + 1)) ++ jsonStr v)) ++
      "\n" ++ spaces (4 * level) ++ "]"

/-- One record as json.dump with indent=4 renders the corresponding dict:
the four keys in insertion order, ": " between key and value, ",\n"
between members. -/
def recJson (level : Nat) (r : Rec) : String :=
  let pad := spaces (4 * (level + 1))
  "\x7b\n" ++
    pad ++ "\"Command\": " ++ pyJsonVal (level + 1) r.Command ++ ",\n" ++
    pad ++ "\"Description\": " ++ pyJsonVal (level + 1) r.Description ++ ",\n" ++
    pad ++ "\"Severity\": " ++ pyJsonVal (level + 1) r.Severity ++ ",\n" ++
    pad ++ "\"MitreAttackTag\": " ++ pyJsonVal (level + 1) r.MitreAttackTag ++
    "\n" ++ spaces (4 * level) ++ "\x7d"

/-- The full text json.dump(commands, f, indent=4) writes in
CommandUpdater.parse_repo: a JSON array of the record dicts, items
indented four spaces, "[]" when empty. -/
def dumpCommands : List Rec → String
  | [] => "[]"
  | r :: rs =>
    "[\n" ++
      String.intercalate ",\n" ((r :: rs).map (fun x => spaces 4 ++ recJson 1 x)) ++
      "\n]"

/-- os.path.join(self._curr_dir, "commands.json") of CommandUpdater. -/
def commands_json_path (curr_dir : String) : String :=
  curr_dir ++ "/commands.json"

/-- CommandUpdater.parse_repo as a file-system transformer: `fs` maps a
path to the file content there (if any); opening the output path with
mode "w" and dumping replaces whatever was at that path with the fresh
serialization and touches nothing else. -/
def parse_repo (curr_dir : String) (files : List (String × FileContent))
    (fs : String → Option String) : String → Option String :=
  fun p =>
    if p = commands_json_path curr_dir then
      some (dumpCommands (repoParser files).1)
    else fs p

/-- The one git action RepoImporter.__init__ performs:
Repo.clone_from(repo_url, repo_dir) or Repo(repo_dir).remotes.origin.pull(). -/
inductive GitOp where
  | cloneFrom : String → String → GitOp
  | pullOrigin : String → GitOp
deriving DecidableEq

/-- f"{Path(working_dir).parent.absolute()}/{repo_name}" given the
already-resolved parent of the working directory. -/
def repo_dir (workingDirParent repo_name : String) : String :=
  workingDirParent ++ "/" ++ repo_name

/-- The branch of RepoImporter.__init__ (repo_importer.py lines 15-19):
clone into the target path when os.path.isdir is false there, else pull. -/
def repoImporterOp (workingDirParent repo_url repo_name : String)
    (isDir : String → Bool) : GitOp :=
  if !(isDir (repo_dir workingDirParent repo_name)) then
    GitOp.cloneFrom repo_url (repo_dir workingDirParent repo_name)
  else
    GitOp.pullOrigin (repo_dir workingDirParent repo_name)

/-- RepoImporter.__init__ run against an executor for the git action: the
single chosen action is executed once, with no try/except around it, so
its outcome — success or error — is the outcome of the constructor. -/
def repoImporterRun (workingDirParent repo_url repo_name : String)
    (isDir : String → Bool) (exec : GitOp → Except String Unit) :
    Except String Unit :=
  exec (repoImporterOp workingDirParent repo_url repo_name isDir)

/-- The stderr text of a subprocess.CalledProcessError, already decoded. -/
structure ProcFailure where
  stderr : String

/-- The SimulationResult dataclass of Simulate.py. -/
structure SimulationResult where
  command : String
  description : String
  severity : String
  mitre_attack_tag : String
  succeeded : Bool
  error_message : String := ""
deriving DecidableEq

/-- run_command of Simulate.py lines 17-22, with the subprocess.run
outcome supplied as `outcome`: success yields a succeeded result with the
default empty error text, a CalledProcessError is caught and yields a
failed result carrying the process's stderr text. -/
def run_command (command description severity mitre_tag : String)
    (outcome : Except ProcFailure Unit) : SimulationResult :=
  match outcome with
  | Except.ok _ => ⟨command, description, severity, mitre_tag, true, ""⟩
  | Except.error e => ⟨command, description, severity, mitre_tag, false, e.stderr⟩

/-- The CommandEntry class of command_add_gui.py. -/
structure CommandEntry where
  command : String
  description : String
  severity : String
  mitre_tag : String
deriving DecidableEq

/-- CommandEntry.to_dict, the dict viewed as a key-lookup function. -/
def CommandEntry.to_dict (e : CommandEntry) : String → Option String :=
  fun k =>
    if k = "Command" then some e.command
    else if k = "Description" then some e.description
    else if k = "Severity" then some e.severity
    else if k = "MitreAttackTag" then some e.mitre_tag
    else none

/-- CommandEntry.from_dict: data.get with the constructor defaults. -/
def CommandEntry.from_dict (d : String → Option String) : CommandEntry :=
  ⟨(d "Command").getD "", (d "Description").getD "",
   (d "Severity").getD "Informational", (d "MitreAttackTag").getD ""⟩

/-- A dictionary with exactly the four serialized keys, each mapped to a
string, viewed as a key-lookup function. -/
def fourKeyDict (c de sv m : String) : String → Option String :=
  fun k =>
    if k = "Command" then some c
    else if k = "Description" then some de
    else if k = "Severity" then some sv
    else if k = "MitreAttackTag" then some m
    else none

/-- When extraction cannot raise, the loop body agrees with the
specification-side record. -/
theorem processCommand_eq_of_ok (c : CmdMap) (h : cmdOk c = true) :
    processCommand c = Except.ok (recOfSpec c) := by
  obtain ⟨co, de, se, mi⟩ := c
  rcases mi with _ | v
  · rcases co with _ | cv <;> rcases de with _ | dv <;> rfl
  · rcases v with str | xs | _
    · rcases co with _ | cv <;> rcases de with _ | dv <;> rfl
    · rcases xs with _ | ⟨x, xs⟩
      · simp [cmdOk] at h
      · rcases co with _ | cv <;> rcases de with _ | dv <;> rfl
    · rcases co with _ | cv <;> rcases de with _ | dv <;> rfl

/-- A present empty-list MitreID makes the loop body raise IndexError. -/
theorem processCommand_error_of_not_ok (c : CmdMap) (h : cmdOk c = false) :
    processCommand c = Except.error "list index out of range" := by
  obtain ⟨co, de, se, mi⟩ := c
  rcases mi with _ | v
  · simp [cmdOk] at h
  · rcases v with str | xs | _
    · simp [cmdOk] at h
    · rcases xs with _ | ⟨x, xs⟩
      · rfl
      · simp [cmdOk] at h
    · simp [cmdOk] at h

/-- When no mapping in the sequence can raise, the records of the loop
are exactly the specification-side records, in source order. -/
theorem processCommands_fst_eq (fp : String) (cs : List CmdMap)
    (h : cs.all cmdOk = true) :
    (processCommands fp cs).1 = cs.filterMap recOfSpec := by
  induction cs with
  | nil => rfl
  | cons c cs ih =>
    simp only [List.all_cons, Bool.and_eq_true] at h
    cases hr : recOfSpec c with
    | none =>
      simp [processCommands, processCommand_eq_of_ok c h.1, hr, ih h.2]
    | some r =>
      simp [processCommands, processCommand_eq_of_ok c h.1, hr, ih h.2]

/-- The records of the whole walk are the per-file records of the YAML
files, concatenated in walk order. -/
theorem repoParser_fst_flatten (files : List (String × FileContent)) :
    (repoParser files).1
      = ((files.filter fun p => isYamlFile p.1).map
          fun p => (processFile p.1 p.2).1).flatten := by
  induction files with
  | nil => rfl
  | cons q rest ih =>
    obtain ⟨fp, fc⟩ := q
    by_cases h : isYamlFile fp = true
    · simp [repoParser, h, List.filter_cons, ih]
    · simp [repoParser, h, List.filter_cons, ih]

/-- A mapping missing the Command key or the Description key produces no
specification-side record. -/
theorem recOfSpec_none_of_missing (c : CmdMap)
    (h : c.command? = none ∨ c.description? = none) : recOfSpec c = none := by
  obtain ⟨co, de, se, mi⟩ := c
  rcases h with h | h
  · simp only at h
    subst h
    rfl
  · simp only at h
    subst h
    rcases co with _ | cv <;> rfl

/-- C1 (amended): when no mapping in the walk has a present empty-list
MitreID (so extraction never raises), the records of the walk are exactly
one specification-side record per command mapping whose Command and
Description keys are present — key presence only, the values are copied
verbatim even when empty — in walk order, with Severity defaulted to
"Informational" when the key is absent; a mapping missing either key
contributes nothing. -/
theorem repoParser_records_spec (files : List (String × FileContent))
    (h : filesOk files = true) :
    (repoParser files).1
      = ((files.filter fun p => isYamlFile p.1).map
          fun p => fileRecsSpec p.2).flatten := by
  induction files with
  | nil => rfl
  | cons q rest ih =>
    obtain ⟨fp, fc⟩ := q
    simp only [filesOk, List.all_cons, Bool.and_eq_true] at h
    have hrest : filesOk rest = true := h.2
    have hfile : (processFile fp fc).1 = fileRecsSpec fc := by
      cases fc with
      | parseError msg => rfl
      | other => rfl
      | commands cs => exact processCommands_fst_eq fp cs h.1
    by_cases hy : isYamlFile fp = true
    · simp [repoParser, hy, List.filter_cons, hfile, ih hrest]
    · simp [repoParser, hy, List.filter_cons, ih hrest]

/-- C1 counterexample: a mapping whose Command key is present but holds
the empty string is retained with that empty Command — the code checks
key presence only, so "no record is retained when either Command or
Description is absent or empty" fails at this input. -/
theorem repoParser_retains_empty_command :
    (repoParser [("lolbins/yml/a.yml",
        FileContent.commands
          [⟨some (YVal.s ""), some (YVal.s "some description"), none, none⟩])]).1
      = [⟨YVal.s "", YVal.s "some description", YVal.s "Informational",
          YVal.s "N/A"⟩] := by
  rfl

/-- One concrete well-formed walk listing: a single file holding the
spec's §8 example command mapping. -/
def exampleWalk : List (String × FileContent) :=
  [("lolbins/yml/t1059.yml", FileContent.commands
      [⟨some (YVal.s "whoami"), some (YVal.s "id check"),
        some (YVal.s "Low"), some (YVal.s "T1059")⟩])]

/-- C1 witness: the amended statement applied to one concrete well-formed
file. -/
theorem repoParser_records_spec_witness :
    filesOk exampleWalk = true
    ∧ (repoParser exampleWalk).1
      = ((exampleWalk.filter fun p => isYamlFile p.1).map
          fun p => fileRecsSpec p.2).flatten :=
  ⟨rfl, repoParser_records_spec exampleWalk rfl⟩

/-- C2 (amended): a command mapping missing the Command key or the
Description key never emits a record, and no exception escapes per-file
processing (the result is always a plain record/log pair).  When its
MitreID extraction cannot raise, the skip is logged and processing
continues with the next mapping; when its MitreID is a present empty
list, the IndexError is instead logged as a per-file parse failure and
the remaining mappings of the file are not visited. -/
theorem processCommands_skip_missing_keys (fp : String) (c : CmdMap)
    (rest : List CmdMap) (h : c.command? = none ∨ c.description? = none) :
    (cmdOk c = true →
      processCommands fp (c :: rest)
        = ((processCommands fp rest).1,
           LogEvent.skippedMalformed fp c :: (processCommands fp rest).2))
    ∧ (cmdOk c = false →
      processCommands fp (c :: rest)
        = ([], [LogEvent.failedParse fp "list index out of range"])) := by
  constructor
  · intro hok
    simp [processCommands, processCommand_eq_of_ok c hok,
      recOfSpec_none_of_missing c h]
  · intro hbad
    simp [processCommands, processCommand_error_of_not_ok c hbad]

/-- C2 counterexample: the first mapping is missing both required keys,
yet no skip is logged and processing does not continue with the next
(well-formed) mapping — its empty-list MitreID raises first, the
per-file handler logs a parse failure, and the second mapping emits
nothing. -/
theorem processCommands_empty_mitre_aborts :
    processCommands "lolbins/yml/f.yml"
        [⟨none, none, none, some (YVal.l [])⟩,
         ⟨some (YVal.s "whoami"), some (YVal.s "id check"), none, none⟩]
      = ([], [LogEvent.failedParse "lolbins/yml/f.yml"
          "list index out of range"]) := by
  rfl

/-- C2 witness: the amended statement applied to a mapping missing its
Command key whose MitreID extraction cannot raise. -/
theorem processCommands_skip_missing_keys_witness :
    ((⟨none, some (YVal.s "desc only"), none, none⟩ : CmdMap).command? = none
      ∨ (⟨none, some (YVal.s "desc only"), none, none⟩ : CmdMap).description? = none)
    ∧ processCommands "lolbins/yml/g.yml"
        [⟨none, some (YVal.s "desc only"), none, none⟩]
      = ((processCommands "lolbins/yml/g.yml" []).1,
         LogEvent.skippedMalformed "lolbins/yml/g.yml"
             ⟨none, some (YVal.s "desc only"), none, none⟩
           :: (processCommands "lolbins/yml/g.yml" []).2) :=
  ⟨Or.inl rfl,
   (processCommands_skip_missing_keys "lolbins/yml/g.yml"
      ⟨none, some (YVal.s "desc only"), none, none⟩ [] (Or.inl rfl)).1 rfl⟩

/-- C3: for a command mapping with both required keys present, the
emitted MitreAttackTag is the first element when the source MitreID value
is a (non-empty) list, the scalar itself when the value is a string or
null scalar, and the sentinel "N/A" when the key is entirely absent. -/
theorem processCommand_mitre_tag (cv dv : YVal) (sev mid : Option YVal) :
    (∀ x xs, mid = some (YVal.l (x :: xs)) →
      processCommand ⟨some cv, some dv, sev, mid⟩
        = Except.ok (some ⟨cv, dv, sev.getD (YVal.s "Informational"),
            YVal.s x⟩))
    ∧ (∀ str, mid = some (YVal.s str) →
      processCommand ⟨some cv, some dv, sev, mid⟩
        = Except.ok (some ⟨cv, dv, sev.getD (YVal.s "Informational"),
            YVal.s str⟩))
    ∧ (mid = some YVal.null →
      processCommand ⟨some cv, some dv, sev, mid⟩
        = Except.ok (some ⟨cv, dv, sev.getD (YVal.s "Informational"),
            YVal.null⟩))
    ∧ (mid = none →
      processCommand ⟨some cv, some dv, sev, mid⟩
        = Except.ok (some ⟨cv, dv, sev.getD (YVal.s "Informational"),
            YVal.s "N/A"⟩)) := by
  refine ⟨?_, ?_, ?_, ?_⟩
  · intro x xs hx
    subst hx
    rfl
  · intro str hx
    subst hx
    rfl
  · intro hx
    subst hx
    rfl
  · intro hx
    subst hx
    rfl

/-- C3 witness: the list case on the spec's own example — MitreID
["T1059", "T1059.001"] emits tag "T1059". -/
theorem processCommand_mitre_tag_witness :
    some (YVal.l ["T1059", "T1059.001"])
        = some (YVal.l ("T1059" :: ["T1059.001"]))
    ∧ processCommand ⟨some (YVal.s "whoami"), some (YVal.s "id check"),
        none, some (YVal.l ["T1059", "T1059.001"])⟩
      = Except.ok (some ⟨YVal.s "whoami", YVal.s "id check",
          YVal.s "Informational", YVal.s "T1059"⟩) :=
  ⟨rfl,
   (processCommand_mitre_tag (YVal.s "whoami") (YVal.s "id check") none
      (some (YVal.l ["T1059", "T1059.001"]))).1 "T1059" ["T1059.001"] rfl⟩

/-- C4: a YAML file whose open or parse raises contributes exactly one
failedParse log line (its path and the exception message) and no records,
while every file before and after it in the walk is processed exactly as
it would be on its own — a failing file never aborts the normalization
pass. -/
theorem repoParser_parse_error_isolated (pre post : List (String × FileContent))
    (fp msg : String) (h : isYamlFile fp = true) :
    repoParser (pre ++ (fp, FileContent.parseError msg) :: post)
      = ((repoParser pre).1 ++ (repoParser post).1,
         (repoParser pre).2
           ++ LogEvent.failedParse fp msg :: (repoParser post).2) := by
  induction pre with
  | nil => simp [repoParser, h, processFile]
  | cons q rest ih =>
    obtain ⟨qp, qc⟩ := q
    simp [repoParser, ih]

/-- C4 witness: a broken file between two good ones — the run completes
with the records of the two good files and one failure log line. -/
theorem repoParser_parse_error_isolated_witness :
    isYamlFile "lolbins/yml/bad.yml" = true
    ∧ repoParser
        ([("lolbins/yml/a.yml", FileContent.commands
            [⟨some (YVal.s "whoami"), some (YVal.s "id check"), none, none⟩])]
          ++ ("lolbins/yml/bad.yml",
               FileContent.parseError "mapping values are not allowed here")
            :: [("lolbins/yml/c.yml", FileContent.commands
                 [⟨some (YVal.s "hostname"), some (YVal.s "host check"),
                   none, none⟩])])
      = ((repoParser [("lolbins/yml/a.yml", FileContent.commands
            [⟨some (YVal.s "whoami"), some (YVal.s "id check"), none, none⟩])]).1
          ++ (repoParser [("lolbins/yml/c.yml", FileContent.commands
               [⟨some (YVal.s "hostname"), some (YVal.s "host check"),
                 none, none⟩])]).1,
         (repoParser [("lolbins/yml/a.yml", FileContent.commands
            [⟨some (YVal.s "whoami"), some (YVal.s "id check"), none, none⟩])]).2
          ++ LogEvent.failedParse "lolbins/yml/bad.yml"
               "mapping values are not allowed here"
            :: (repoParser [("lolbins/yml/c.yml", FileContent.commands
                 [⟨some (YVal.s "hostname"), some (YVal.s "host check"),
                   none, none⟩])]).2) :=
  ⟨rfl,
   repoParser_parse_error_isolated
     [("lolbins/yml/a.yml", FileContent.commands
        [⟨some (YVal.s "whoami"), some (YVal.s "id check"), none, none⟩])]
     [("lolbins/yml/c.yml", FileContent.commands
        [⟨some (YVal.s "hostname"), some (YVal.s "host check"), none, none⟩])]
     "lolbins/yml/bad.yml" "mapping values are not allowed here" rfl⟩

/-- C5: with an identical walk listing the serialized output is
byte-identical (the normalizer is a pure function of the listing); the
records of a walk are the per-file record blocks of the YAML files
concatenated in listing order (within a block, source order); and no
uniqueness is enforced — the multiplicity of any record in the output is
the sum of its per-file multiplicities, so duplicates across files are
all preserved. -/
theorem repoParser_deterministic_ordered (l1 l2 files : List (String × FileContent))
    (r : Rec) (h : l1 = l2) :
    (dumpCommands (repoParser l1).1 = dumpCommands (repoParser l2).1)
    ∧ ((repoParser files).1
        = ((files.filter fun p => isYamlFile p.1).map
            fun p => (processFile p.1 p.2).1).flatten)
    ∧ ((repoParser files).1.count r
        = ((files.filter fun p => isYamlFile p.1).map
            fun p => (processFile p.1 p.2).1.count r).sum) := by
  refine ⟨by rw [h], repoParser_fst_flatten files, ?_⟩
  rw [repoParser_fst_flatten files, List.count_flatten, List.map_map]
  rfl

/-- A walk listing in which two distinct files define the very same
command, and the record both of them normalize to. -/
def dupWalk : List (String × FileContent) :=
  [("lolbins/yml/a.yml", FileContent.commands
      [⟨some (YVal.s "whoami"), some (YVal.s "id check"), none, none⟩]),
   ("lolbins/yml/b.yml", FileContent.commands
      [⟨some (YVal.s "whoami"), some (YVal.s "id check"), none, none⟩])]

/-- The record each file of `dupWalk` normalizes to. -/
def dupRec : Rec :=
  ⟨YVal.s "whoami", YVal.s "id check", YVal.s "Informational", YVal.s "N/A"⟩

/-- C5 witness: the same command in two different files appears with
multiplicity equal to the sum over the files — duplicates preserved. -/
theorem repoParser_deterministic_ordered_witness :
    dupWalk = dupWalk
    ∧ (repoParser dupWalk).1.count dupRec
      = ((dupWalk.filter fun p => isYamlFile p.1).map
          fun p => (processFile p.1 p.2).1.count dupRec).sum :=
  ⟨rfl, (repoParser_deterministic_ordered dupWalk dupWalk dupWalk dupRec rfl).2.2⟩

/-- C6: the run writes exactly the serialization of the walk's ordered
records to the fixed commands.json path, regardless of and replacing
whatever was there before (no merge), touching no other path; and the
serialization is the pretty-printed 4-space-indent JSON array of objects
with exactly the keys Command, Description, Severity, MitreAttackTag,
checked concretely on the spec's example record. -/
theorem parse_repo_output (curr_dir : String) (files : List (String × FileContent))
    (fs fs2 : String → Option String) :
    (parse_repo curr_dir files fs (commands_json_path curr_dir)
        = some (dumpCommands (repoParser files).1))
    ∧ (∀ p, p ≠ commands_json_path curr_dir →
        parse_repo curr_dir files fs p = fs p)
    ∧ (parse_repo curr_dir files fs (commands_json_path curr_dir)
        = parse_repo curr_dir files fs2 (commands_json_path curr_dir))
    ∧ (dumpCommands
          [⟨YVal.s "whoami", YVal.s "id check", YVal.s "Low", YVal.s "T1059"⟩]
        = "[\n    \x7b\n        \"Command\": \"whoami\",\n        \"Description\": \"id check\",\n        \"Severity\": \"Low\",\n        \"MitreAttackTag\": \"T1059\"\n    \x7d\n]") := by
  refine ⟨?_, ?_, ?_, ?_⟩
  · simp [parse_repo]
  · intro p hp
    simp [parse_repo, hp]
  · simp [parse_repo]
  · rfl

/-- C6 witness: a path other than the output path is untouched. -/
theorem parse_repo_output_witness :
    ("/sim/src/other.txt" ≠ commands_json_path "/sim/src")
    ∧ parse_repo "/sim/src" [] (fun _ => none) "/sim/src/other.txt"
        = (fun _ => none : String → Option String) "/sim/src/other.txt" :=
  ⟨by decide,
   (parse_repo_output "/sim/src" [] (fun _ => none) (fun _ => none)).2.1
     "/sim/src/other.txt" (by decide)⟩

/-- C7: when no directory exists at parent-of-working-dir/name the
importer clones the remote into exactly that path; when a directory
exists there it pulls from the configured upstream instead, never cloning
over it; and an error from the one executed git action is the outcome of
the whole run — propagated unchanged, with no retry, cleanup, or second
action. -/
theorem repoImporter_clone_or_pull (workingDirParent repo_url repo_name : String)
    (isDir : String → Bool) (exec : GitOp → Except String Unit) (err : String) :
    (isDir (repo_dir workingDirParent repo_name) = false →
      repoImporterOp workingDirParent repo_url repo_name isDir
        = GitOp.cloneFrom repo_url (repo_dir workingDirParent repo_name))
    ∧ (isDir (repo_dir workingDirParent repo_name) = true →
      repoImporterOp workingDirParent repo_url repo_name isDir
        = GitOp.pullOrigin (repo_dir workingDirParent repo_name))
    ∧ (exec (repoImporterOp workingDirParent repo_url repo_name isDir)
          = Except.error err →
      repoImporterRun workingDirParent repo_url repo_name isDir exec
        = Except.error err) := by
  refine ⟨fun h => ?_, fun h => ?_, fun h => h⟩
  · simp [repoImporterOp, h]
  · simp [repoImporterOp, h]

/-- C7 witness: with no directory present the action is a clone into the
parent-of-working-dir/name path. -/
theorem repoImporter_clone_or_pull_witness :
    ((fun _ : String => false) (repo_dir "/opt" "lolbins-repo") = false)
    ∧ repoImporterOp "/opt" "https://example.com/r.git" "lolbins-repo"
        (fun _ => false)
      = GitOp.cloneFrom "https://example.com/r.git"
          (repo_dir "/opt" "lolbins-repo") :=
  ⟨rfl,
   (repoImporter_clone_or_pull "/opt" "https://example.com/r.git" "lolbins-repo"
      (fun _ => false) (fun _ => Except.ok ()) "network unreachable").1 rfl⟩

/-- C8: run_command returns exactly one SimulationResult carrying its
four inputs; a successful execution yields succeeded = true with the
default empty error text, and a CalledProcessError yields succeeded =
false carrying the process's stderr text — the failure is caught, never
re-raised. -/
theorem run_command_result (command description severity mitre_tag : String)
    (outcome : Except ProcFailure Unit) :
    ((run_command command description severity mitre_tag outcome).command
        = command)
    ∧ ((run_command command description severity mitre_tag outcome).description
        = description)
    ∧ ((run_command command description severity mitre_tag outcome).severity
        = severity)
    ∧ ((run_command command description severity mitre_tag outcome).mitre_attack_tag
        = mitre_tag)
    ∧ (outcome = Except.ok () →
        run_command command description severity mitre_tag outcome
          = ⟨command, description, severity, mitre_tag, true, ""⟩)
    ∧ (∀ e, outcome = Except.error e →
        run_command command description severity mitre_tag outcome
          = ⟨command, description, severity, mitre_tag, false, e.stderr⟩) := by
  rcases outcome with e | u
  · refine ⟨rfl, rfl, rfl, rfl, fun hx => ?_, fun e2 hx => ?_⟩
    · simp at hx
    · cases hx
      rfl
  · refine ⟨rfl, rfl, rfl, rfl, fun _ => rfl, fun e2 hx => ?_⟩
    simp at hx

/-- C8 witness: the deliberately failing command of Simulate.py's test
list, with its stderr captured in a failed result. -/
theorem run_command_result_witness :
    ((Except.error ⟨"sh: invalidcommand123: command not found"⟩ :
        Except ProcFailure Unit)
      = Except.error ⟨"sh: invalidcommand123: command not found"⟩)
    ∧ run_command "invalidcommand123" "Deliberate failure" "Medium" "T1059"
        (Except.error ⟨"sh: invalidcommand123: command not found"⟩)
      = ⟨"invalidcommand123", "Deliberate failure", "Medium", "T1059", false,
         "sh: invalidcommand123: command not found"⟩ :=
  ⟨rfl,
   (run_command_result "invalidcommand123" "Deliberate failure" "Medium" "T1059"
      (Except.error ⟨"sh: invalidcommand123: command not found"⟩)).2.2.2.2.2
     ⟨"sh: invalidcommand123: command not found"⟩ rfl⟩

/-- C9: a mapping with both required keys present but an empty-list
MitreID raises IndexError in the first-element extraction before the
required-field check; the per-file handler catches and logs it, that
mapping and the well-formed mapping after it in the same file emit no
records, and the file later in the walk is still processed normally. -/
theorem empty_mitre_list_behavior :
    repoParser
        [("lolbins/yml/a.yml", FileContent.commands
            [⟨some (YVal.s "net user"), some (YVal.s "enumerate users"),
              none, some (YVal.l [])⟩,
             ⟨some (YVal.s "whoami"), some (YVal.s "id check"), none, none⟩]),
         ("lolbins/yml/b.yml", FileContent.commands
            [⟨some (YVal.s "hostname"), some (YVal.s "host check"),
              some (YVal.s "High"), some (YVal.s "T1003")⟩])]
      = ([⟨YVal.s "hostname", YVal.s "host check", YVal.s "High",
           YVal.s "T1003"⟩],
         [LogEvent.failedParse "lolbins/yml/a.yml"
            "list index out of range"]) := by
  rfl

/-- C10: CommandEntry serialization round-trips: from_dict inverts
to_dict on every entry, and to_dict inverts from_dict on every dictionary
holding exactly the four serialized keys with string values. -/
theorem commandEntry_roundtrip :
    (∀ e : CommandEntry,
      CommandEntry.from_dict (CommandEntry.to_dict e) = e)
    ∧ (∀ c de sv m : String,
      CommandEntry.to_dict (CommandEntry.from_dict (fourKeyDict c de sv m))
        = fourKeyDict c de sv m) := by
  constructor
  · intro e
    obtain ⟨a, b, c2, d⟩ := e
    simp [CommandEntry.from_dict, CommandEntry.to_dict]
  · intro c de sv m
    have h : CommandEntry.from_dict (fourKeyDict c de sv m) = ⟨c, de, sv, m⟩ := by
      simp [CommandEntry.from_dict, fourKeyDict]
    rw [h]
    rfl
